import Mathlib

/-!
Shallow embedding of the core of the Git-Some repository
(`code_garden/todos.py` and `code_garden/models.py`) and verification of
the specification's claims about it.

Conventions:
* Python strings that are only concatenated or compared are `String`;
  strings that are parsed character by character (splitting, stripping,
  prefix-removal) are `List Char`.
* Python `None` results become `Option.none`; an uncaught exception on a
  code path is modelled by `Option.none` (or by `[]`/`{}` where the source
  catches it and substitutes an empty result).
* Calls into `subprocess` / git are modelled by a `run` parameter mapping
  the argv list to the text the command printed.
-/

namespace CodeGarden

/-! ## Python string primitives on `List Char` -/

/-- Characters removed by Python's `str.strip()` (ASCII whitespace). -/
def isPySpace (c : Char) : Bool :=
  c = ' ' || c = '\t' || c = '\n' || c = '\r' || c = '\x0b' || c = '\x0c'

/-- Python `str.strip()`: drop leading and trailing whitespace. -/
def pyStrip (s : List Char) : List Char :=
  ((s.dropWhile isPySpace).reverse.dropWhile isPySpace).reverse

/-- Python `str.split(sep)` for a one-character separator: splits into the
pieces between occurrences of `sep`; `"".split(sep) == [""]`. -/
def splitOnChar (sep : Char) : List Char → List (List Char)
  | [] => [[]]
  | c :: cs =>
    if c = sep then [] :: splitOnChar sep cs
    else
      match splitOnChar sep cs with
      | [] => [[c]]
      | h :: t => (c :: h) :: t

/-- Digits of a Python integer literal after the sign: a leading digit, then
digits with single underscores allowed between digits (accumulator form). -/
def pyDigitsAux : Nat → List Char → Option Nat
  | acc, [] => some acc
  | acc, '_' :: rest =>
    match rest with
    | [] => none
    | d :: rest' =>
      if d.isDigit then pyDigitsAux (acc * 10 + (d.toNat - 48)) rest' else none
  | acc, d :: rest =>
    if d.isDigit then pyDigitsAux (acc * 10 + (d.toNat - 48)) rest else none

/-- Unsigned decimal part of Python `int(str)`: must start with a digit. -/
def pyNat : List Char → Option Nat
  | [] => none
  | c :: rest => if c.isDigit then pyDigitsAux (c.toNat - 48) rest else none

/-- Python `int(str)`: optional surrounding whitespace, optional sign,
decimal digits; `none` models the raised `ValueError`. -/
def pyInt (s : List Char) : Option Int :=
  match pyStrip s with
  | '+' :: rest => (pyNat rest).map Int.ofNat
  | '-' :: rest => (pyNat rest).map (fun n => -(Int.ofNat n))
  | rest => (pyNat rest).map Int.ofNat

/-! ## Task store (`code_garden/todos.py`)

The sqlite table
`tasks (title, description, tag, date_added, status, id INTEGER PRIMARY KEY AUTOINCREMENT)`
is modelled as a list of rows in table order together with the
AUTOINCREMENT sequence counter. -/

/-- One row of the `tasks` table. -/
structure TaskRow where
  title : String
  description : Option String
  tag : Option String
  date_added : String
  status : String
  id : Int
deriving Repr, DecidableEq

/-- The task database: rows in table order plus the AUTOINCREMENT counter
(sqlite's `sqlite_sequence` entry: every id ever assigned is ≤ `seq`). -/
structure TaskStore where
  rows : List TaskRow
  seq : Int
deriving Repr, DecidableEq

/-- Store invariant maintained by sqlite AUTOINCREMENT: every stored id is
at most the sequence counter. -/
def TaskStore.WF (s : TaskStore) : Prop := ∀ r ∈ s.rows, r.id ≤ s.seq

/-- A `Task` object as constructed in Python (`id` is `None` until the row
is read back from the store). -/
structure Task where
  title : String
  description : Option String
  tag : Option String
  date_added : String
  status : String
  id : Option Int
deriving Repr, DecidableEq

/-- The id AUTOINCREMENT will assign to the next insert. -/
def assignedId (db : TaskStore) : Int := db.seq + 1

/-- `Task.add`: `INSERT INTO tasks (title, description, tag, date_added,
status) VALUES (?,?,?,?,?)`; the store assigns the id. -/
def Task.add (db : TaskStore) (t : Task) : TaskStore :=
  { rows := db.rows ++
      [⟨t.title, t.description, t.tag, t.date_added, t.status, assignedId db⟩],
    seq := assignedId db }

/-- `Task.get`: `SELECT ... FROM tasks WHERE id=?` + `fetchone()`. The store
is returned unchanged; `none` models `fetchone()` returning no row, after
which `result[0]` raises an uncaught `TypeError`. -/
def Task.get (db : TaskStore) (i : Int) : TaskStore × Option TaskRow :=
  (db, db.rows.find? (fun r => r.id == i))

/-- `Task.edit`: `UPDATE tasks SET title=?, description=?, tag=?, status=?
WHERE id=?` (the row's `date_added` and `id` columns are not in the SET
list). A `Task` whose id is `None` matches no row (`WHERE id='None'`). -/
def Task.edit (db : TaskStore) (t : Task) : TaskStore :=
  match t.id with
  | none => db
  | some tid =>
    { db with
      rows := db.rows.map (fun r =>
        if r.id = tid then
          { r with title := t.title, description := t.description,
                   tag := t.tag, status := t.status }
        else r) }

/-- Key of one status string inside `see_list`'s Python sort key: the pair
`(status == "completed", status != "active")` with `False < True` encoded
as `0 < 1`. -/
def statusKey (s : String) : Nat × Nat :=
  ((if s == "completed" then 1 else 0), (if s != "active" then 1 else 0))

/-- Lexicographic ≤ on the full sort key `(statusKey, id)`, matching Python
tuple comparison. -/
def keyLE (x y : (Nat × Nat) × Int) : Bool :=
  decide (x.1.1 < y.1.1 ∨ (x.1.1 = y.1.1 ∧
    (x.1.2 < y.1.2 ∨ (x.1.2 = y.1.2 ∧ x.2 ≤ y.2))))

/-- Comparison used by `see_list`'s `sorted(..., key=lambda x: (x.status ==
"completed", x.status != "active", x.id))`. -/
def taskLE (a b : TaskRow) : Bool :=
  keyLE (statusKey a.status, a.id) (statusKey b.status, b.id)

/-- `Task.see_list`: `SELECT` all rows in table order, then Python's stable
`sorted` by the three-key tuple. -/
def see_list (rows : List TaskRow) : List TaskRow :=
  rows.mergeSort taskLE

/-- Rank of a status in the order the spec describes: active first, then
open, then completed (from the spec's words, for stating the claim). -/
def statusRank (s : String) : Nat :=
  if s = "active" then 0 else if s = "open" then 1 else 2

/-- The ordering the spec claims for `see_list`'s output: strictly
increasing status rank, ties broken by strictly increasing id. -/
def specOrder (a b : TaskRow) : Prop :=
  statusRank a.status < statusRank b.status ∨
    (statusRank a.status = statusRank b.status ∧ a.id < b.id)

instance (a b : TaskRow) : Decidable (specOrder a b) := by
  unfold specOrder
  exact inferInstance

/-- The three tasks of the claim's example: (id=1,completed), (id=2,active),
(id=3,open), in table order. -/
def c1Tasks : List TaskRow :=
  [⟨"a", none, none, "d", "completed", 1⟩,
   ⟨"b", none, none, "d", "active", 2⟩,
   ⟨"c", none, none, "d", "open", 3⟩]

/-- The order the claim requires for the example: ids [2, 3, 1]. -/
def c1Expected : List TaskRow :=
  [⟨"b", none, none, "d", "active", 2⟩,
   ⟨"c", none, none, "d", "open", 3⟩,
   ⟨"a", none, none, "d", "completed", 1⟩]

/-! ## Repository / Branch layer (`code_garden/models.py`)

Calls to `Repository.run_command` are modelled by a parameter
`run : String → List String → String` mapping (repository name, argv) to
the text the command printed on stdout. File reads that the source wraps
in `try/except` take an `Option` holding the file's content, `none` when
the file is absent or unreadable. -/

/-- A branch, identified by repository name and branch name. -/
structure Branch where
  repository : String
  name : String
deriving Repr, DecidableEq

/-- A log timestamp: either `datetime.datetime.min` or the value of
`datetime.datetime.fromtimestamp(s)` for epoch seconds `s`. -/
inductive Timestamp where
  | min
  | fromEpoch (s : Int)
deriving Repr, DecidableEq

/-- One parsed commit of `Repository.log`. -/
structure LogItem where
  repository : String
  name : String
  timestamp : Timestamp
  abbrev_hash : String
deriving Repr, DecidableEq

/-- One iteration of `Repository.log`'s parsing loop on a single line of
`git log --pretty=format:%s\t%at\t%h` output. `none` models an uncaught
exception inside the loop (an out-of-range index or a failing `int()`). -/
def parseLogLine (repo : String) (line : List Char) : Option LogItem :=
  let fields := splitOnChar '\t' (pyStrip line)
  if fields.length = 2 then
    some ⟨repo, "[No Commit Message]", Timestamp.min, String.mk (fields.headD [])⟩
  else
    match (splitOnChar '\t' line)[1]? with
    | none => none
    | some rawTs =>
      match pyInt rawTs with
      | none => none
      | some ts =>
        match fields[2]? with
        | none => none
        | some h =>
          some ⟨repo, String.mk (fields.headD []), Timestamp.fromEpoch ts, String.mk h⟩

/-- `Repository.log` applied to the text the log command printed: parse
every line; the surrounding `try/except` turns any in-loop exception into
an empty result. -/
def logOf (repo : String) (output : String) : List LogItem :=
  let parsed := (splitOnChar '\n' output.data).map (parseLogLine repo)
  if parsed.all Option.isSome then parsed.filterMap id else []

/-- The revision-range argument `Branch.compare_with_master` interpolates:
`f"{'master' if self.name != 'master' else 'origin/master'}...{self.name}"`. -/
def compareRange (name : String) : String :=
  (if name ≠ "master" then "master" else "origin/master") ++ "..." ++ name

/-- Number of non-empty lines of a command's output:
`len([i.strip() for i in comparison.split("\n") if i])`. -/
def countLines (output : String) : Nat :=
  ((splitOnChar '\n' output.data).filter (fun l => !l.isEmpty)).length

/-- `Branch.compare_with_master`: run the log command over the constructed
range and count the non-empty lines of its output. -/
def Branch.compare_with_master (run : String → List String → String) (b : Branch) : Nat :=
  countLines (run b.repository ["git", "log", compareRange b.name, "--oneline"])

/-- Modelled from the claim's words only (for comparison with the code):
the one-sided range `baseline..branch`, substituting a remote-tracking ref
for the baseline when the branch compared is the baseline itself. -/
def claimOneSidedRange (name : String) : String :=
  (if name = "master" then "origin/master" else "master") ++ ".." ++ name

/-- Modelled from the amended claim's words: the symmetric-difference range
`baseline...branch` with the same remote-tracking substitution, counting
non-empty output lines. -/
def compare_with_master_spec (run : String → List String → String) (b : Branch) : Nat :=
  countLines (run b.repository
    ["git", "log",
     (if b.name = "master" then "origin/master" else "master") ++ "..." ++ b.name,
     "--oneline"])

/-- `Repository.readme`: the `try/except` returns the empty dict when
`README.md` is absent or unreadable, otherwise a dict with the raw text
under `"txt"` and the rendered text under `"md"`. The external
`markdown.markdown` renderer is the parameter `render`; dicts are
association lists. -/
def Repository.readme (render : String → String) (file : Option String) :
    List (String × String) :=
  match file with
  | none => []
  | some raw => [("txt", raw), ("md", render raw)]

/-- `Repository.ignored`: one `IgnoreItem` per non-empty (after `strip()`)
line of `.gitignore`, keeping the stripped text; empty when the file is
absent.  Items are represented by their `name` field (the repository field
is constant). -/
def ignoredLines (content : List Char) : List (List Char) :=
  ((splitOnChar '\n' content).map pyStrip).filter (fun l => !l.isEmpty)

def Repository.ignored (file : Option (List Char)) : List (List Char) :=
  match file with
  | none => []
  | some content => ignoredLines content

/-- The write loop shared by `IgnoreItem.create` and `IgnoreItem.delete`:
`for i in ignores_: f.write(f"{i.name}\n")`. -/
def writeIgnoreFile (names : List (List Char)) : List Char :=
  names.foldr (fun n acc => n ++ '\n' :: acc) []

/-- `IgnoreItem.create`: re-read the ignore list, append this item, rewrite
the whole file. -/
def IgnoreItem.create (file : Option (List Char)) (name : List Char) : List Char :=
  writeIgnoreFile (Repository.ignored file ++ [name])

/-- `IgnoreItem.delete`: re-read the ignore list, delete by index, rewrite
the whole file. -/
def IgnoreItem.delete (file : Option (List Char)) (idx : Nat) : List Char :=
  writeIgnoreFile ((Repository.ignored file).eraseIdx idx)

/-- The current-branch marker `"* "` of `git branch` output. -/
def marker : List Char := ['*', ' ']

/-- Python `line.replace("* ", "")`: remove every (non-overlapping,
left-to-right) occurrence of the marker. -/
def removeMarker : List Char → List Char
  | [] => []
  | [c] => [c]
  | c :: d :: rest =>
    if c = '*' ∧ d = ' ' then removeMarker rest
    else c :: removeMarker (d :: rest)

/-- Whether the marker `"* "` occurs anywhere in the string. -/
def hasMarker : List Char → Bool
  | c :: d :: rest => decide (c = '*' ∧ d = ' ') || hasMarker (d :: rest)
  | _ => false

/-- `Repository.current_branch`: scan the `git branch` listing for the
first line starting with `"* "`; return that line with `"* "` removed as a
`Branch`, or `none` when no line carries the marker. -/
def Repository.current_branch (repo : String) (output : List Char) : Option Branch :=
  ((splitOnChar '\n' output).find? (fun l => marker.isPrefixOf l)).map
    (fun l => ⟨repo, String.mk (removeMarker l)⟩)

/-- One working-tree change of `Repository.diffs` (fields only; no claim
exercises its methods). -/
structure DiffItem where
  repository : String
  name : String
  type_ : String
deriving Repr, DecidableEq

/-- `Branch.to_dict`: repository, name, and the recomputed
`compare_with_master` count. -/
structure BranchDict where
  repository : String
  name : String
  compare_with_master : Nat
deriving Repr, DecidableEq

def Branch.to_dict (run : String → List String → String) (b : Branch) : BranchDict :=
  ⟨b.repository, b.name, b.compare_with_master run⟩

/-- The structured view `Repository.to_dict` assembles.  Nested entities
whose serialisation no claim exercises (log, todos, diffs, ignored) are
carried as their parsed values. -/
structure RepoDict where
  name : String
  path : String
  branches : List BranchDict
  current_branch : BranchDict
  remote_url : Option String
  log : List LogItem
  todos : List TaskRow
  diffs : List DiffItem
  readme : List (String × String)
  ignored : List (List Char)

/-- `Repository.to_dict` over the already-computed parts of the view:
evaluating `self.current_branch.to_dict()` when `current_branch` is `None`
raises an uncaught `AttributeError`, modelled by `none`. -/
def Repository.to_dict (name path : String) (run : String → List String → String)
    (branches : List Branch) (current_branch : Option Branch)
    (remote_url : Option String) (log : List LogItem) (todos : List TaskRow)
    (diffs : List DiffItem) (readme : List (String × String))
    (ignored : List (List Char)) : Option RepoDict :=
  match current_branch with
  | none => none
  | some cb =>
    some ⟨name, path, branches.map (Branch.to_dict run), Branch.to_dict run cb,
          remote_url, log, todos, diffs, readme, ignored⟩

/-- `Repository.export`: serialize `to_dict()` to `<name>.json`; a raise
inside `to_dict` propagates. -/
def Repository.export (name path : String) (run : String → List String → String)
    (branches : List Branch) (current_branch : Option Branch)
    (remote_url : Option String) (log : List LogItem) (todos : List TaskRow)
    (diffs : List DiffItem) (readme : List (String × String))
    (ignored : List (List Char)) : Option (String × RepoDict) :=
  (Repository.to_dict name path run branches current_branch remote_url log todos
      diffs readme ignored).map (fun d => (name ++ ".json", d))

lemma statusKey_open : statusKey "open" = (0, 1) := by decide

lemma statusKey_active : statusKey "active" = (0, 0) := by decide

lemma statusKey_completed : statusKey "completed" = (1, 1) := by decide

lemma statusRank_open : statusRank "open" = 1 := by decide

lemma statusRank_active : statusRank "active" = 0 := by decide

lemma statusRank_completed : statusRank "completed" = 2 := by decide

lemma taskLE_trans : ∀ (a b c : TaskRow), taskLE a b → taskLE b c → taskLE a c := by
  intro a b c h₁ h₂
  simp only [taskLE, keyLE, decide_eq_true_eq] at h₁ h₂ ⊢
  omega

lemma taskLE_total : ∀ (a b : TaskRow), taskLE a b || taskLE b a := by
  intro a b
  simp only [taskLE, keyLE, Bool.or_eq_true, decide_eq_true_eq]
  omega

lemma specOrder_antisymm : ∀ (a b : TaskRow), specOrder a b → specOrder b a → a = b := by
  intro a b h₁ h₂
  exfalso
  unfold specOrder at h₁ h₂
  omega

/-- A `taskLE`-sorted pair of rows with distinct ids and statuses among the
three legal ones is in the spec's strict order. -/
lemma taskLE_strict {a b : TaskRow}
    (ha : a.status = "open" ∨ a.status = "active" ∨ a.status = "completed")
    (hb : b.status = "open" ∨ b.status = "active" ∨ b.status = "completed")
    (hle : taskLE a b) (hne : a.id ≠ b.id) : specOrder a b := by
  unfold taskLE at hle
  unfold specOrder
  rcases ha with h₁ | h₁ | h₁ <;> rcases hb with h₂ | h₂ | h₂ <;>
    rw [h₁, h₂] at hle ⊢ <;>
    simp [statusKey_open, statusKey_active, statusKey_completed,
      statusRank_open, statusRank_active, statusRank_completed,
      keyLE] at hle ⊢ <;>
    omega

/-- Splitting recovers a separator-free piece written before a separator. -/
lemma splitOnChar_append_cons (sep : Char) (n rest : List Char) (h : sep ∉ n) :
    splitOnChar sep (n ++ sep :: rest) = n :: splitOnChar sep rest := by
  induction n with
  | nil => simp [splitOnChar]
  | cons c cs ih =>
    have hc : ¬(c = sep) := fun e => h (by simp [e])
    have hcs : sep ∉ cs := fun hm => h (List.mem_cons_of_mem _ hm)
    simp only [List.cons_append, splitOnChar, if_neg hc, List.append_eq, ih hcs]

/-- Writing names one per line and re-reading recovers them, provided each
name is non-empty, already stripped, and newline-free. -/
lemma ignored_write (names : List (List Char))
    (h : ∀ n ∈ names, n ≠ [] ∧ pyStrip n = n ∧ '\n' ∉ n) :
    Repository.ignored (some (writeIgnoreFile names)) = names := by
  show ignoredLines (writeIgnoreFile names) = names
  induction names with
  | nil => rfl
  | cons n ns ih =>
    obtain ⟨hne, hstrip, hnl⟩ := h n (List.mem_cons_self n ns)
    have hrest := fun m hm => h m (List.mem_cons_of_mem _ hm)
    have hw : writeIgnoreFile (n :: ns) = n ++ '\n' :: writeIgnoreFile ns := rfl
    have hpos : (!n.isEmpty) = true := by
      cases n with
      | nil => exact absurd rfl hne
      | cons _ _ => rfl
    unfold ignoredLines
    rw [hw, splitOnChar_append_cons '\n' n _ hnl, List.map_cons, hstrip]
    have hih := ih hrest
    unfold ignoredLines at hih
    simp [List.filter_cons, hpos, hih]

/-- A string not containing the marker is unchanged by marker removal. -/
lemma removeMarker_id : ∀ (l : List Char), hasMarker l = false → removeMarker l = l
  | [], _ => rfl
  | [_], _ => rfl
  | c :: d :: rest, h => by
    unfold hasMarker at h
    simp only [Bool.or_eq_false_iff, decide_eq_false_iff_not] at h
    unfold removeMarker
    rw [if_neg h.1, removeMarker_id (d :: rest) h.2]

/-- The marker is a prefix of itself prepended to anything. -/
lemma marker_isPrefixOf_append (rest : List Char) :
    marker.isPrefixOf (marker ++ rest) = true := by
  simp [marker, List.isPrefixOf]

/-- Marker removal on a marked line strips the leading marker. -/
lemma removeMarker_marker_append (rest : List Char) (h : hasMarker rest = false) :
    removeMarker (marker ++ rest) = rest := by
  have : marker ++ rest = '*' :: ' ' :: rest := rfl
  rw [this]
  cases rest with
  | nil => rfl
  | cons x xs =>
    unfold removeMarker
    rw [if_pos ⟨rfl, rfl⟩, removeMarker_id _ h]

end CodeGarden

open CodeGarden

/-- Claim C1: for every finite set of task records with statuses in
{open, active, completed} and distinct ids, `Task.see_list()` returns
exactly those records (a permutation) sorted so that active tasks come
first, then open, then completed, each group in ascending id order; in
particular (id=1,completed), (id=2,active), (id=3,open) come back in the
order [2, 3, 1]. -/
theorem C1_see_list_ordering :
    (∀ rows : List TaskRow,
        rows.Pairwise (fun a b => a.id ≠ b.id) →
        (∀ t ∈ rows, t.status = "open" ∨ t.status = "active" ∨ t.status = "completed") →
        (see_list rows).Perm rows ∧ (see_list rows).Pairwise specOrder) ∧
    see_list c1Tasks = c1Expected := by
  have main : ∀ rows : List TaskRow,
      rows.Pairwise (fun a b => a.id ≠ b.id) →
      (∀ t ∈ rows, t.status = "open" ∨ t.status = "active" ∨ t.status = "completed") →
      (see_list rows).Perm rows ∧ (see_list rows).Pairwise specOrder := by
    intro rows hid hst
    have hperm : (see_list rows).Perm rows := List.mergeSort_perm rows taskLE
    refine ⟨hperm, ?_⟩
    have hsorted : (see_list rows).Pairwise (fun a b => taskLE a b) :=
      List.sorted_mergeSort taskLE_trans taskLE_total rows
    have hne : (see_list rows).Pairwise (fun a b => a.id ≠ b.id) :=
      (hperm.pairwise_iff (fun h => Ne.symm h)).mpr hid
    refine (hsorted.and hne).imp_of_mem ?_
    intro a b hma hmb hab
    exact taskLE_strict (hst a (hperm.mem_iff.mp hma)) (hst b (hperm.mem_iff.mp hmb))
      hab.1 hab.2
  refine ⟨main, ?_⟩
  haveI : IsAntisymm TaskRow specOrder := ⟨specOrder_antisymm⟩
  have h1 := main c1Tasks (by decide) (by decide)
  have hpt : c1Tasks.Perm c1Expected := by decide
  exact List.eq_of_perm_of_sorted (h1.1.trans hpt) h1.2 (by decide)

/-- Witness for C1 at the example task list. -/
theorem C1_see_list_ordering_witness :
    (see_list c1Tasks).Perm c1Tasks ∧ (see_list c1Tasks).Pairwise specOrder :=
  C1_see_list_ordering.1 c1Tasks (by decide) (by decide)

/-- Claim C2 (amended): the placeholder branch of `Repository.log` fires on
a line whose stripped form splits on tab into exactly two fields (e.g. an
empty-subject commit line, where `strip()` removes the leading tab); the
resulting `LogItem` has subject "[No Commit Message]", the minimum
timestamp, and as abbreviated hash the first of the two fields. -/
theorem C2_log_placeholder_two_fields :
    ∀ (repo : String) (line : List Char) (f0 f1 : List Char),
      splitOnChar '\t' (pyStrip line) = [f0, f1] →
      parseLogLine repo line =
        some ⟨repo, "[No Commit Message]", Timestamp.min, String.mk f0⟩ := by
  intro repo line f0 f1 h
  unfold parseLogLine
  rw [h]
  simp

/-- Counterexample to claim C2 as stated: the hash-only line "abc1234"
splits into one field, falls into the else branch, whose index `[1]`
raises; the catch-all then makes `Repository.log` return the empty list,
not a placeholder `LogItem`. -/
theorem C2_counterexample :
    logOf "repo" "abc1234" = [] ∧
    logOf "repo" "abc1234" ≠
      [⟨"repo", "[No Commit Message]", Timestamp.min, "abc1234"⟩] := by
  constructor <;> decide

/-- Witness for C2 at the empty-subject line `"\t1700000000\tabc1234"`:
the code records the timestamp field, not the hash, as `abbrev_hash`. -/
theorem C2_log_placeholder_witness :
    splitOnChar '\t' (pyStrip "\t1700000000\tabc1234".data) =
      ["1700000000".data, "abc1234".data] ∧
    parseLogLine "repo" "\t1700000000\tabc1234".data =
      some ⟨"repo", "[No Commit Message]", Timestamp.min, "1700000000"⟩ :=
  ⟨by decide,
   C2_log_placeholder_two_fields "repo" "\t1700000000\tabc1234".data
     "1700000000".data "abc1234".data (by decide)⟩

/-- Claim C3 (amended): `Branch.compare_with_master` counts the commits in
the symmetric-difference range `baseline...branch` (three dots), using the
remote-tracking ref `origin/master` when the branch compared is the
baseline itself, by counting the non-empty lines of the log command's
output. -/
theorem C3_compare_with_master :
    ∀ (run : String → List String → String) (b : Branch),
      Branch.compare_with_master run b = compare_with_master_spec run b := by
  intro run b
  by_cases h : b.name = "master" <;>
    simp [Branch.compare_with_master, compare_with_master_spec, compareRange, h]

/-- Counterexample to claim C3 as stated: for branch "dev" the code
interpolates the symmetric range "master...dev", not the one-sided range
"master..dev" the claim names. -/
theorem C3_counterexample :
    compareRange "dev" = "master...dev" ∧
    claimOneSidedRange "dev" = "master..dev" ∧
    compareRange "dev" ≠ claimOneSidedRange "dev" := by
  refine ⟨by decide, by decide, by decide⟩

/-- Claim C4 (amended): for every non-empty list of ignore names in which
each name is non-empty, contains no newline, and carries no leading or
trailing whitespace, writing the ignore file (one name per line, as
`IgnoreItem.create`/`delete` do) and re-reading it via `Repository.ignored`
returns the identical ordered sequence. -/
theorem C4_ignore_roundtrip :
    ∀ names : List (List Char), names ≠ [] →
      (∀ n ∈ names, n ≠ [] ∧ pyStrip n = n ∧ '\n' ∉ n) →
      Repository.ignored (some (writeIgnoreFile names)) = names := by
  intro names _ h
  exact ignored_write names h

/-- Counterexample to claim C4 as stated: the non-empty name list [" "]
does not round-trip — `strip()` empties the name on re-read and the line
is dropped. -/
theorem C4_counterexample :
    Repository.ignored (some (writeIgnoreFile [[' ']])) = [] ∧
    Repository.ignored (some (writeIgnoreFile [[' ']])) ≠ [[' ']] := by
  constructor <;> decide

/-- Witness for C4 at a two-name ignore list. -/
theorem C4_ignore_roundtrip_witness :
    Repository.ignored (some (writeIgnoreFile ["node_modules".data, ".env".data])) =
      ["node_modules".data, ".env".data] :=
  C4_ignore_roundtrip _ (by decide) (by decide)

/-- Claim C5: `CodeGarden.Task.add()` followed by `CodeGarden.Task.get` at the id the store
assigned to that insertion returns a record equal in every field (title,
description, tag, date_added, status, id) to the inserted record. -/
theorem C5_add_get_roundtrip :
    ∀ (db : TaskStore) (t : Task), db.WF →
      (CodeGarden.Task.get (CodeGarden.Task.add db t) (assignedId db)).2 =
        some ⟨t.title, t.description, t.tag, t.date_added, t.status, assignedId db⟩ := by
  intro db t hwf
  have hfresh : db.rows.find? (fun r => r.id == assignedId db) = none := by
    rw [List.find?_eq_none]
    intro r hr
    have hle := hwf r hr
    simp only [beq_iff_eq]
    unfold assignedId
    omega
  show (db.rows ++
        ([⟨t.title, t.description, t.tag, t.date_added, t.status, assignedId db⟩] :
          List TaskRow)).find?
      (fun (r : TaskRow) => r.id == assignedId db) =
    some ⟨t.title, t.description, t.tag, t.date_added, t.status, assignedId db⟩
  rw [List.find?_append, hfresh]
  simp

/-- Witness for C5: insert into the empty store and read back id 1. -/
theorem C5_add_get_roundtrip_witness :
    (CodeGarden.Task.get (CodeGarden.Task.add ⟨[], 0⟩ ⟨"write spec", none, some "docs", "day0", "open", none⟩)
        (assignedId ⟨[], 0⟩)).2 =
      some ⟨"write spec", none, some "docs", "day0", "open", assignedId ⟨[], 0⟩⟩ :=
  C5_add_get_roundtrip ⟨[], 0⟩ _ (fun _ hr => nomatch hr)

/-- Claim C6: `CodeGarden.Task.get` with an id matching no stored record yields the
failing lookup (`fetchone()` returns no row and `result[0]` raises,
modelled by `none`) and leaves the store unchanged. -/
theorem C6_get_unknown_id :
    ∀ (db : TaskStore) (i : Int), (∀ r ∈ db.rows, r.id ≠ i) →
      CodeGarden.Task.get db i = (db, none) := by
  intro db i h
  have hnone : db.rows.find? (fun r => r.id == i) = none :=
    List.find?_eq_none.mpr (fun r hr => by simp only [beq_iff_eq]; exact h r hr)
  unfold CodeGarden.Task.get
  rw [hnone]

/-- Witness for C6: looking up id 2 in a store holding only id 1. -/
theorem C6_get_unknown_id_witness :
    CodeGarden.Task.get ⟨[⟨"a", none, none, "d", "open", 1⟩], 1⟩ 2 =
      (⟨[⟨"a", none, none, "d", "open", 1⟩], 1⟩, none) :=
  C6_get_unknown_id _ 2 (by decide)

/-- Claim C7: `Repository.readme` returns the empty structure when
README.md is absent or unreadable and never raises (the function is
total); when readable it returns both the raw text (key "txt") and the
rendered form (key "md"). -/
theorem C7_readme :
    ∀ render : String → String,
      Repository.readme render none = [] ∧
      ∀ raw : String,
        (Repository.readme render (some raw)).lookup "txt" = some raw ∧
        (Repository.readme render (some raw)).lookup "md" = some (render raw) := by
  intro render
  refine ⟨rfl, fun raw => ⟨?_, ?_⟩⟩ <;> rfl

/-- Claim C8: `CodeGarden.Task.edit()` rewrites title/description/tag/status of the
record whose id equals the instance's id, leaves that record's
`date_added` (and id) unchanged, and leaves every record with a different
id unchanged, preserving the store's length and sequence. -/
theorem C8_edit_frame :
    ∀ (db : TaskStore) (t : Task) (tid : Int), t.id = some tid →
      (CodeGarden.Task.edit db t).seq = db.seq ∧
      (CodeGarden.Task.edit db t).rows.length = db.rows.length ∧
      ∀ (n : Nat) (r r' : TaskRow),
        db.rows[n]? = some r → (CodeGarden.Task.edit db t).rows[n]? = some r' →
        (r.id ≠ tid → r' = r) ∧
        (r.id = tid →
          r'.date_added = r.date_added ∧ r'.id = r.id ∧
          r'.title = t.title ∧ r'.description = t.description ∧
          r'.tag = t.tag ∧ r'.status = t.status) := by
  intro db t tid hid
  unfold CodeGarden.Task.edit
  rw [hid]
  refine ⟨rfl, by simp, ?_⟩
  intro n r r' hr hr'
  simp only [List.getElem?_map, hr, Option.map_some'] at hr'
  injection hr' with hr'
  subst hr'
  constructor
  · intro hne
    rw [if_neg hne]
  · intro heq
    rw [if_pos heq]
    exact ⟨rfl, rfl, rfl, rfl, rfl, rfl⟩

/-- Witness for C8 at a two-row store, editing the row with id 1. -/
theorem C8_edit_frame_witness :
    (CodeGarden.Task.edit ⟨[⟨"a", none, none, "d1", "open", 1⟩, ⟨"b", none, none, "d2", "open", 2⟩], 2⟩
        ⟨"a2", some "x", some "t", "dz", "active", some 1⟩).seq =
      (⟨[⟨"a", none, none, "d1", "open", 1⟩, ⟨"b", none, none, "d2", "open", 2⟩], 2⟩ :
        TaskStore).seq ∧
    (CodeGarden.Task.edit ⟨[⟨"a", none, none, "d1", "open", 1⟩, ⟨"b", none, none, "d2", "open", 2⟩], 2⟩
        ⟨"a2", some "x", some "t", "dz", "active", some 1⟩).rows.length =
      (⟨[⟨"a", none, none, "d1", "open", 1⟩, ⟨"b", none, none, "d2", "open", 2⟩], 2⟩ :
        TaskStore).rows.length :=
  ⟨(C8_edit_frame _ _ 1 rfl).1, (C8_edit_frame _ _ 1 rfl).2.1⟩

/-- Claim C9: `Repository.current_branch` returns the branch named on the
first line carrying the `"* "` marker, with the marker removed (which, when
the marker does not reoccur in the remainder — true of every git branch
listing, since refnames cannot contain `*` — is exactly the line with the
prefix stripped), and returns `none` without failing when no line carries
the marker. -/
theorem C9_current_branch :
    ∀ (repo : String) (output : List Char),
      ((∀ l ∈ splitOnChar '\n' output, marker.isPrefixOf l = false) →
        Repository.current_branch repo output = none) ∧
      (∀ pre rest post,
        splitOnChar '\n' output = pre ++ (marker ++ rest) :: post →
        (∀ l ∈ pre, marker.isPrefixOf l = false) →
        hasMarker rest = false →
        Repository.current_branch repo output = some ⟨repo, String.mk rest⟩) := by
  intro repo output
  constructor
  · intro h
    have hnone : (splitOnChar '\n' output).find? (fun l => marker.isPrefixOf l) = none :=
      List.find?_eq_none.mpr (fun l hl => by simp [h l hl])
    unfold Repository.current_branch
    rw [hnone]
    rfl
  · intro pre rest post hsplit hpre hnm
    have hprenone : pre.find? (fun l => marker.isPrefixOf l) = none :=
      List.find?_eq_none.mpr (fun l hl => by simp [hpre l hl])
    unfold Repository.current_branch
    rw [hsplit, List.find?_append, hprenone,
      List.find?_cons_of_pos _ (marker_isPrefixOf_append rest)]
    simp [removeMarker_marker_append rest hnm]

/-- Witness for C9: a marked listing yields the stripped branch, an
unmarked listing yields `none`. -/
theorem C9_current_branch_witness :
    Repository.current_branch "repo" "  main\n* dev".data = some ⟨"repo", "dev"⟩ ∧
    Repository.current_branch "repo" "  main\n  dev".data = none :=
  ⟨(C9_current_branch "repo" "  main\n* dev".data).2 ["  main".data] "dev".data []
      (by decide) (by decide) (by decide),
   (C9_current_branch "repo" "  main\n  dev".data).1 (by decide)⟩

/-- Claim C10: whenever `current_branch` yields no result, `to_dict()` —
and therefore `export()` — fails with a raised error (modelled by `none`)
instead of producing a structured view, even though the other nested
fields (readme, ignored, log) each degrade to an empty value on failure. -/
theorem C10_to_dict_none_current_branch :
    ∀ (name path : String) (run : String → List String → String)
      (branches : List Branch) (remote_url : Option String) (log : List LogItem)
      (todos : List TaskRow) (diffs : List DiffItem)
      (readme : List (String × String)) (ignored : List (List Char)),
      Repository.to_dict name path run branches none remote_url log todos diffs
          readme ignored = none ∧
      Repository.export name path run branches none remote_url log todos diffs
          readme ignored = none ∧
      (∀ render, Repository.readme render none = []) ∧
      Repository.ignored none = [] ∧
      (∀ repo, logOf repo "abc1234" = []) := by
  intro name path run branches remote_url log todos diffs readme ignored
  exact ⟨rfl, rfl, fun _ => rfl, rfl, fun _ => rfl⟩

